import Mathlib

/-!
Shallow embedding of the `sheepapp` scoring pipeline: configuration
validation, contemporary grouping, trait standardization, hard filtering,
category and composite scoring, ranking, explanation generation and cull
identification, together with theorems settling the specification claims.

A pandas DataFrame is modelled as an ordered association list from column
names to columns of optional rationals: `none` models a missing value
(pandas `NaN`/`NaT`), and floating-point arithmetic is modelled by exact
rational arithmetic.  All comparisons with a missing value are `false`,
matching NaN comparison semantics in pandas.
-/

namespace SheepApp

/-- A pandas column: one optional rational per row. -/
abbrev Col := List (Option ℚ)

/-- A pandas DataFrame: ordered association list of named columns. -/
abbrev DFrame := List (String × Col)

/-- Column-membership test, mirroring `c in df.columns`. -/
def hasCol (df : DFrame) (c : String) : Bool :=
  df.any (fun p => p.1 == c)

/-- Column lookup, mirroring `df[c]` (first column with the name wins). -/
def getCol (df : DFrame) (c : String) : Col :=
  match df.find? (fun p => p.1 == c) with
  | some p => p.2
  | none => []

/-- Number of rows of the frame (length of its first column). -/
def nrows (df : DFrame) : Nat :=
  match df with
  | [] => 0
  | p :: _ => p.2.length

/-- Column assignment, mirroring `df[c] = v`: overwrite the column when it
exists, append it otherwise. -/
def setCol (df : DFrame) (c : String) (v : Col) : DFrame :=
  if hasCol df c then df.map (fun p => if p.1 = c then (c, v) else p)
  else df ++ [(c, v)]

/-- Value of column `c` at row `i`, missing when out of range. -/
def cell (df : DFrame) (c : String) (i : Nat) : Option ℚ :=
  (getCol df c).getD i none

/-! ## Configuration (`core/models.py`, `AnalysisConfig`) -/

/-- Analysis configuration: thresholds and category weights, with the
defaults of `AnalysisConfig` in `core/models.py`.  (The per-category trait
weights are declared in the source but unused by the scoring code, so they
are not modelled.) -/
structure AnalysisConfig where
  contemporary_group_window_days : Int := 30
  min_birth_weight : ℚ := 2
  max_footrot_score : ℚ := 4
  max_dag_score : ℚ := 4
  min_weaning_weight : ℚ := 20
  max_micron : ℚ := 25
  bse_pass_required : Bool := true
  weights : List (String × ℚ) :=
    [("growth", 3/10), ("wool", 1/5), ("reproduction", 1/5),
     ("health", 1/5), ("temperament", 1/10)]

/-- The default configuration (`AnalysisConfig()`). -/
def defaultConfig : AnalysisConfig := {}

/-- The `validate_weights_sum` field validator of `AnalysisConfig`:
reject the weights unless they sum to 1.0 within 0.001. -/
def validate_weights_sum (w : List (String × ℚ)) :
    Except String (List (String × ℚ)) :=
  if |(w.map Prod.snd).sum - 1| > 1/1000 then
    Except.error "Weights must sum to 1.0"
  else Except.ok w

/-- Pydantic construction of an `AnalysisConfig` with the given category
weights: the field validator runs at construction and its result (the
unmodified weights) becomes the stored field. -/
def mkAnalysisConfig (w : List (String × ℚ)) : Except String AnalysisConfig :=
  match validate_weights_sum w with
  | Except.error e => Except.error e
  | Except.ok w2 => Except.ok { weights := w2 }

/-! ## Trait standardization (`processing/standardizer.py`) -/

/-- Percentile standardization of one trait column within one cohort,
embedding `DataStandardizer._standardize_trait` for `method = "percentile"`
(the insufficient-data guard) followed by `_percentile_standardize`: with
fewer than 2 non-missing values every entry becomes missing; otherwise a
non-missing value `v` maps to `count(valid ≤ v) / count(valid) × 100` and
missing entries stay missing. -/
def percentileStandardize (values : List (Option ℚ)) : List (Option ℚ) :=
  let valid := values.filterMap id
  if valid.length < 2 then values.map (fun _ => none)
  else values.map (fun o => o.map (fun v =>
    ((valid.countP (fun u => u ≤ v) : ℚ) / (valid.length : ℚ)) * 100))

/-- Z-score standardization of one trait column within one cohort,
embedding `DataStandardizer._standardize_trait` for `method = "zscore"`
followed by `_zscore_standardize`.  The sample standard deviation (pandas
`std`, `ddof = 1`) is the square root of the sample variance, modelled by
`Rat.sqrt`; it is zero exactly when the variance is zero, which is the only
property of the square root any claim relies on. -/
def zscoreStandardize (values : List (Option ℚ)) : List (Option ℚ) :=
  let valid := values.filterMap id
  if valid.length < 2 then values.map (fun _ => none)
  else
    let m := valid.sum / (valid.length : ℚ)
    let variance :=
      ((valid.map (fun v => (v - m) ^ 2)).sum) / ((valid.length : ℚ) - 1)
    let sd := Rat.sqrt variance
    if sd = 0 then values.map (fun _ => some 0)
    else values.map (fun o => o.map (fun v => (v - m) / sd))

/-! ## Category, composite and rank computation (`scoring/ranker.py`) -/

/-- Trait columns of the growth category in `_calculate_category_scores`. -/
def growth_traits : List String :=
  ["adg_100_200d", "adg_200_300d", "wt_200d_adj", "wt_300d_adj"]

/-- Trait columns of the wool category. -/
def wool_traits : List String :=
  ["gfw", "cfw", "micron_score", "staple_len_score"]

/-- Trait columns of the reproduction category. -/
def repro_traits : List String :=
  ["weaning_rate", "lambs_weaned", "pregnancy_success"]

/-- Trait columns of the health category. -/
def health_traits : List String :=
  ["fec_score", "footrot_score", "dag_score"]

/-- Row-wise mean of the given columns ignoring missing values
(`df[cols].mean(axis=1, skipna=True)`): missing when every value of the
row is missing. -/
def rowMeanSkipna (df : DFrame) (cs : List String) : List (Option ℚ) :=
  (List.range (nrows df)).map (fun i =>
    let vals := cs.filterMap (fun c => (getCol df c).getD i none)
    if vals.isEmpty then none else some (vals.sum / (vals.length : ℚ)))

/-- One non-health block of `_calculate_category_scores`: when the
category score column is absent, set it to the row mean of the available
trait columns with missing means filled with 0, or to the constant 0 when
no trait column exists.  A present score column leaves the frame
untouched. -/
def addCategoryScore (df : DFrame) (scoreCol : String)
    (traits : List String) : DFrame :=
  if hasCol df scoreCol then df
  else
    let avail := traits.filter (fun t => hasCol df t)
    if avail.isEmpty then
      setCol df scoreCol (List.replicate (nrows df) (some 0))
    else
      setCol df scoreCol
        ((rowMeanSkipna df avail).map (fun o => some (o.getD 0)))

/-- Health-trait adjustment of `_calculate_category_scores`: footrot and
dag scores are reversed (`5 − raw`) before averaging; missing values stay
missing. -/
def healthAdjust (c : String) (o : Option ℚ) : Option ℚ :=
  if c = "footrot_score" ∨ c = "dag_score" then o.map (fun v => 5 - v)
  else o

/-- The health block of `_calculate_category_scores`: like the other
categories, but footrot and dag values are inverted before the row mean. -/
def addHealthScore (df : DFrame) : DFrame :=
  if hasCol df "health_score" then df
  else
    let avail := health_traits.filter (fun t => hasCol df t)
    if avail.isEmpty then
      setCol df "health_score" (List.replicate (nrows df) (some 0))
    else
      setCol df "health_score"
        ((List.range (nrows df)).map (fun i =>
          let vals :=
            avail.filterMap (fun c => healthAdjust c ((getCol df c).getD i none))
          some ((if vals.isEmpty then (none : Option ℚ)
            else some (vals.sum / (vals.length : ℚ))).getD 0)))

/-- The temperament block of `_calculate_category_scores`:
`temperament_score = temperament.fillna(0)` when a raw temperament column
exists, constant 0 otherwise; a present score column leaves the frame
untouched. -/
def addTemperamentScore (df : DFrame) : DFrame :=
  if hasCol df "temperament_score" then df
  else if hasCol df "temperament" then
    setCol df "temperament_score"
      ((getCol df "temperament").map (fun o => some (o.getD 0)))
  else setCol df "temperament_score" (List.replicate (nrows df) (some 0))

/-- `RankingEngine._calculate_category_scores`: the five category blocks
in code order. -/
def calculateCategoryScores (df : DFrame) : DFrame :=
  addTemperamentScore (addHealthScore (addCategoryScore (addCategoryScore
    (addCategoryScore df "growth_score" growth_traits)
    "wool_score" wool_traits) "reproduction_score" repro_traits))

/-- `RankingEngine._calculate_composite_score`: categories of the weight
table whose score column exists contribute `score × weight` when their
weight is positive (a missing score entry contributes 0, as in a pandas
skipna sum); the total is divided by the sum of the contributing weights.
With no contributing category the whole column is 0. -/
def calculateCompositeScore (df : DFrame)
    (weights : List (String × ℚ)) : DFrame :=
  let present := weights.filter (fun p => hasCol df (p.1 ++ "_score"))
  if present.isEmpty then
    setCol df "composite_score" (List.replicate (nrows df) (some 0))
  else
    let pos := present.filter (fun p => 0 < p.2)
    let total := (pos.map Prod.snd).sum
    if pos ≠ [] ∧ 0 < total then
      setCol df "composite_score" ((List.range (nrows df)).map (fun i =>
        some ((pos.map (fun p =>
          ((getCol df (p.1 ++ "_score")).getD i none).getD 0 * p.2)).sum /
          total)))
    else setCol df "composite_score" (List.replicate (nrows df) (some 0))

instance rankRelTotal : IsTotal ℚ (fun a b => b ≤ a) :=
  ⟨fun a b => le_total b a⟩

instance rankRelTrans : IsTrans ℚ (fun a b => b ≤ a) :=
  ⟨fun _ _ _ h1 h2 => le_trans h2 h1⟩

/-- Index of the first occurrence of `x` in a list (the list length when
absent): the position a sort-based ranker assigns to a whole tie group. -/
def firstPos (x : ℚ) : List ℚ → Nat
  | [] => 0
  | y :: t => if x = y then 0 else firstPos x t + 1

/-- Competition ranking of a score column, embedding
`rank(ascending=False, method="min").astype(int)`: sort the scores in
descending order and give every score one plus the position of the first
occurrence of its value in the sorted list, so that tied scores share the
lowest position of their tie group. -/
def rankMinDesc (scores : List ℚ) : List Nat :=
  let sorted := scores.insertionSort (fun a b => b ≤ a)
  scores.map (fun x => firstPos x sorted + 1)

/-- `RankingEngine._add_ranking`: write a `rank` column computed from the
`composite_score` column (that column is complete after score calculation,
so a missing entry, on which pandas `astype(int)` would raise, does not
arise; it is read as 0 here), or the constant 1 when there is no composite
column. -/
def addRanking (df : DFrame) : DFrame :=
  if hasCol df "composite_score" then
    setCol df "rank"
      ((rankMinDesc ((getCol df "composite_score").map (fun o => o.getD 0))).map
        (fun n => some (n : ℚ)))
  else setCol df "rank" (List.replicate (nrows df) (some 1))

/-- `RankingEngine.calculate_scores`: category scores, composite score,
then ranking. -/
def calculateScores (df : DFrame) (cfg : AnalysisConfig) : DFrame :=
  addRanking (calculateCompositeScore (calculateCategoryScores df)
    cfg.weights)

/-! ## Hard filters (`scoring/filters.py`, `apply_hard_filters`) -/

/-- Mask value of one comparison filter at one row: true when the value
exists and satisfies `pred`; a missing value fails the comparison, as a
pandas comparison with NaN is `False`. -/
def passesFilter (df : DFrame) (c : String) (pred : ℚ → Bool)
    (i : Nat) : Bool :=
  match (getCol df c).getD i none with
  | some v => pred v
  | none => false

/-- One hard-filter stage of `apply_hard_filters`: when the trait column
exists, keep the surviving rows whose mask (computed on the original
frame) is true; when the column is absent the filter is skipped.  (The
code skips the masking when no row at all fails; that case leaves the
surviving set unchanged, so it needs no separate branch.) -/
def hardFilterStage (df : DFrame) (c : String) (pred : ℚ → Bool)
    (idxs : List Nat) : List Nat :=
  if hasCol df c then idxs.filter (fun i => passesFilter df c pred i)
  else idxs

/-- Surviving row indices of `FilterEngine.apply_hard_filters`: the six
hard filters applied in code order to the row indices of the frame (the
breeding-soundness filter only when the configuration mandates it). -/
def hardSurvivors (cfg : AnalysisConfig) (df : DFrame) : List Nat :=
  let s1 := hardFilterStage df "wt_birth"
    (fun v => cfg.min_birth_weight ≤ v) (List.range (nrows df))
  let s2 := hardFilterStage df "footrot_score"
    (fun v => v ≤ cfg.max_footrot_score) s1
  let s3 := hardFilterStage df "dag_score" (fun v => v ≤ cfg.max_dag_score) s2
  let s4 := hardFilterStage df "wt_wean"
    (fun v => cfg.min_weaning_weight ≤ v) s3
  let s5 := hardFilterStage df "micron" (fun v => v ≤ cfg.max_micron) s4
  if cfg.bse_pass_required then
    hardFilterStage df "bse_pass" (fun v => v == 1) s5
  else s5

/-! ## Cull identification (`scoring/filters.py`, `identify_cull_candidates`) -/

/-- Pandas `Series.quantile(0.1)` with the default linear interpolation
over the non-missing values: with ascending sorted non-missing values
`v 0 ≤ … ≤ v (m-1)` and position `h = (m-1)/10`, the result interpolates
between the values at the floor of `h` and the following index; missing
when every value is missing. -/
def quantile10 (xs : List (Option ℚ)) : Option ℚ :=
  let valid := xs.filterMap id
  if valid.isEmpty then none
  else
    let s := valid.insertionSort (fun a b => a ≤ b)
    let m := valid.length
    let h : ℚ := ((m : ℚ) - 1) / 10
    let j := (m - 1) / 10
    let vj := s.getD j 0
    some (vj + (h - (j : ℚ)) * (s.getD (j + 1) vj - vj))

/-- Cull criterion: the existing cull flag of row `i` equals 1. -/
def cullFlagged (df : DFrame) (i : Nat) : Bool :=
  hasCol df "cull_flag" && passesFilter df "cull_flag" (fun v => v == 1) i

/-- Cull criterion: the 300-day weight of row `i` is strictly below the
10th percentile of the population's 300-day weights. -/
def lowLateWeight (df : DFrame) (i : Nat) : Bool :=
  hasCol df "wt_300d" &&
    (match quantile10 (getCol df "wt_300d"),
        (getCol df "wt_300d").getD i none with
     | some thr, some v => v < thr
     | _, _ => false)

/-- Cull criterion: the health score of row `i` is strictly below the 10th
percentile of the population's health scores. -/
def poorHealth (df : DFrame) (i : Nat) : Bool :=
  hasCol df "health_score" &&
    (match quantile10 (getCol df "health_score"),
        (getCol df "health_score").getD i none with
     | some thr, some v => v < thr
     | _, _ => false)

/-- Cull criterion: the weaning rate of row `i` is strictly below the
absolute floor 0.5. -/
def poorRepro (df : DFrame) (i : Nat) : Bool :=
  hasCol df "weaning_rate" && passesFilter df "weaning_rate"
    (fun v => v < 1/2) i

/-- `identify_cull_candidates`: the cull recommendation of row `i`,
accumulated over the four criteria in code order (initialized to false,
set to true by every criterion that holds). -/
def cullRecommended (df : DFrame) (i : Nat) : Bool :=
  let r0 := false
  let r1 := if cullFlagged df i then true else r0
  let r2 := if lowLateWeight df i then true else r1
  let r3 := if poorHealth df i then true else r2
  if poorRepro df i then true else r3

/-- Reason fragments accumulated by `identify_cull_candidates` for row
`i`, in code order; `cull_reasons` is their concatenation followed by a
right-strip of `;` and spaces. -/
def cullReasonPieces (df : DFrame) (i : Nat) : List String :=
  (if cullFlagged df i then ["Existing cull flag"] else []) ++
  (if lowLateWeight df i then ["Low 300d weight; "] else []) ++
  (if poorHealth df i then ["Poor health; "] else []) ++
  (if poorRepro df i then ["Poor reproduction; "] else [])

/-- The `rstrip("; ")` of the code: drop trailing semicolons and spaces. -/
def rstripSemiSpace (s : String) : String :=
  String.mk ((s.data.reverse.dropWhile (fun ch => ch == ';' || ch == ' ')).reverse)

/-- The `cull_reasons` string of row `i`. -/
def cullReasons (df : DFrame) (i : Nat) : String :=
  rstripSemiSpace (String.join (cullReasonPieces df i))

/-! ## Explanation generation (`ranker.py`, `_generate_explanation`) -/

/-- A scored row as read by `_generate_explanation`: the five category
score entries; `none` models an entry absent from the row, which
`row.get(col, 0)` reads as 0 and the `col in row` membership test
rejects. -/
structure ScoreRow where
  growth_score : Option ℚ
  wool_score : Option ℚ
  reproduction_score : Option ℚ
  health_score : Option ℚ
  temperament_score : Option ℚ

/-- The explanation payload. -/
structure Explanation where
  strengths : List String
  weaknesses : List String
  recommendations : List String

/-- Strength note of one category: emitted when the score (missing read as
0) is strictly greater than 0.7. -/
def strengthNote (name : String) (score : ℚ) : List String :=
  if score > 7/10 then ["Strong " ++ name ++ " performance"] else []

/-- Weakness note of one category: the `elif` branch, reached when the
score is not strictly greater than 0.7 and is strictly less than 0.3. -/
def weaknessNote (name : String) (score : ℚ) : List String :=
  if score > 7/10 then []
  else if score < 3/10 then ["Poor " ++ name ++ " performance"] else []

/-- Recommendation of one category: emitted when the entry is present in
the row and strictly less than 0.3. -/
def recommendationNote (o : Option ℚ) (text : String) : List String :=
  match o with
  | some v => if v < 3/10 then [text] else []
  | none => []

/-- `RankingEngine._generate_explanation`. -/
def generateExplanation (r : ScoreRow) : Explanation :=
  { strengths :=
      strengthNote "growth" (r.growth_score.getD 0) ++
      strengthNote "wool" (r.wool_score.getD 0) ++
      strengthNote "reproduction" (r.reproduction_score.getD 0) ++
      strengthNote "health" (r.health_score.getD 0) ++
      strengthNote "temperament" (r.temperament_score.getD 0)
    weaknesses :=
      weaknessNote "growth" (r.growth_score.getD 0) ++
      weaknessNote "wool" (r.wool_score.getD 0) ++
      weaknessNote "reproduction" (r.reproduction_score.getD 0) ++
      weaknessNote "health" (r.health_score.getD 0) ++
      weaknessNote "temperament" (r.temperament_score.getD 0)
    recommendations :=
      recommendationNote r.growth_score "Focus on improving growth performance" ++
      recommendationNote r.health_score "Address health issues" ++
      recommendationNote r.reproduction_score "Improve reproductive performance" }

/-! ## Contemporary grouping (`processing/grouping.py`) -/

/-- One animal row as read by contemporary grouping: identifier, optional
management group (missing models NaN) and optional birth date counted in
days (missing models the NaT produced by
`pd.to_datetime(…, errors="coerce")` in the cleaner). -/
structure GroupRow where
  animal_id : String
  mgmt_group : Option String
  birth_date : Option Int

/-- Order of `sort_values("birth_date")`: dates ascending with missing
dates last (`na_position="last"`). -/
def birthLE : Option Int → Option Int → Prop
  | some a, some b => a ≤ b
  | some _, none => True
  | none, some _ => False
  | none, none => True

instance : DecidableRel birthLE := fun a b =>
  match a, b with
  | some x, some y => inferInstanceAs (Decidable (x ≤ y))
  | some _, none => inferInstanceAs (Decidable True)
  | none, some _ => inferInstanceAs (Decidable False)
  | none, none => inferInstanceAs (Decidable True)

/-- The window walk of `_group_by_birth_window` over the rows sorted by
birth date: state is the window-start date (`none` is the Python `None`
before the first row; `some none` is a NaT start) and the group counter.
A missing birth date makes the day difference NaT, whose `days` field is
NaN, so the `days_diff <= window_days` test is false and a new window
opens. -/
def windowWalk (mg : String) (window : Int) :
    List (String × Option Int) → Option (Option Int) → Nat →
    List (String × String)
  | [], _, _ => []
  | (aid, bd) :: rest, st, g =>
    match st with
    | none => (aid, mg ++ "_G" ++ toString g) :: windowWalk mg window rest (some bd) g
    | some st0 =>
      let within : Bool :=
        match bd, st0 with
        | some b, some s => decide (b - s ≤ window)
        | _, _ => false
      if within then
        (aid, mg ++ "_G" ++ toString g) :: windowWalk mg window rest (some st0) g
      else
        (aid, mg ++ "_G" ++ toString (g + 1)) :: windowWalk mg window rest (some bd) (g + 1)

/-- `_group_by_birth_window` for one management-group value: filter the
rows of that management group (a missing management group matches no
value, since NaN equals nothing in pandas), sort by birth date with
missing dates last, and walk the birth windows. -/
def groupByBirthWindow (window : Int) (mg : String)
    (rows : List GroupRow) : List (String × String) :=
  let subset := rows.filter (fun r => r.mgmt_group == some mg)
  let sortedRows := subset.insertionSort
    (fun a b => birthLE a.birth_date b.birth_date)
  windowWalk mg window (sortedRows.map (fun r => (r.animal_id, r.birth_date))) none 1

/-- The distinct management-group values of the rows (`unique()` over the
non-missing values). -/
def mgmtGroups (rows : List GroupRow) : List String :=
  (rows.filterMap (fun r => r.mgmt_group)).dedup

/-- `create_contemporary_groups`: the animal-to-cohort assignments over
all management groups. -/
def createContemporaryGroups (window : Int) (rows : List GroupRow) :
    List (String × String) :=
  ((mgmtGroups rows).map (fun mg => groupByBirthWindow window mg rows)).flatten

/-- Cohort of an animal after `create_contemporary_groups`: the
`contemporary_group` column starts as `None` and each assignment writes
the cohort of its animal id, so with unique ids the cohort is the lookup
in the assignment list. -/
def contemporaryGroupOf (window : Int) (rows : List GroupRow)
    (aid : String) : Option String :=
  ((createContemporaryGroups window rows).find? (fun p => p.1 == aid)).map
    Prod.snd

/-! ## Supporting lemmas and claim theorems -/

theorem getCol_nil (c : String) : getCol [] c = [] := rfl

theorem getCol_cons (p : String × Col) (t : DFrame) (c : String) :
    getCol (p :: t) c = if p.1 = c then p.2 else getCol t c := by
  unfold getCol
  cases hpc : (p.1 == c) with
  | true => simp [List.find?_cons, hpc, beq_iff_eq.1 hpc]
  | false =>
    have : ¬ p.1 = c := by simpa using hpc
    simp [List.find?_cons, hpc, this]

theorem hasCol_cons (p : String × Col) (t : DFrame) (c : String) :
    hasCol (p :: t) c = ((p.1 == c) || hasCol t c) := by
  simp [hasCol]

theorem getCol_replace_self (df : DFrame) (c : String) (v : Col)
    (h : hasCol df c = true) :
    getCol (df.map (fun p => if p.1 = c then (c, v) else p)) c = v := by
  induction df with
  | nil => simp [hasCol] at h
  | cons p t ih =>
    by_cases hp : p.1 = c
    · simp [getCol_cons, hp]
    · have ht : hasCol t c = true := by
        rw [hasCol_cons] at h
        simpa [hp] using h
      simp [getCol_cons, hp, ih ht]

theorem getCol_replace_ne (df : DFrame) (c c2 : String) (v : Col)
    (h : c2 ≠ c) :
    getCol (df.map (fun p => if p.1 = c then (c, v) else p)) c2 =
      getCol df c2 := by
  induction df with
  | nil => rfl
  | cons p t ih =>
    by_cases hp : p.1 = c
    · simp [getCol_cons, hp, Ne.symm h, ih]
    · simp [getCol_cons, hp, ih]

theorem getCol_append_single_ne (df : DFrame) (c c2 : String) (v : Col)
    (h : c2 ≠ c) : getCol (df ++ [(c, v)]) c2 = getCol df c2 := by
  induction df with
  | nil => simp [getCol_cons, getCol_nil, Ne.symm h]
  | cons p t ih =>
    rw [List.cons_append, getCol_cons, getCol_cons]
    by_cases hp2 : p.1 = c2
    · simp [hp2]
    · simp only [if_neg hp2]
      exact ih

theorem getCol_append_single_self (df : DFrame) (c : String) (v : Col)
    (h : hasCol df c = false) : getCol (df ++ [(c, v)]) c = v := by
  induction df with
  | nil => simp [getCol_cons]
  | cons p t ih =>
    rw [hasCol_cons] at h
    have hp : ¬ p.1 = c := by
      intro hx
      simp [hx] at h
    have ht : hasCol t c = false := by
      simpa [hp] using h
    rw [List.cons_append, getCol_cons, if_neg hp]
    exact ih ht

theorem getCol_setCol_self (df : DFrame) (c : String) (v : Col) :
    getCol (setCol df c v) c = v := by
  unfold setCol
  by_cases h : hasCol df c
  · simp only [h, if_true, beq_iff_eq]
    exact getCol_replace_self df c v h
  · simp only [h, Bool.false_eq_true, if_false]
    exact getCol_append_single_self df c v (by simpa using h)

theorem getCol_setCol_ne (df : DFrame) (c c2 : String) (v : Col)
    (h : c2 ≠ c) : getCol (setCol df c v) c2 = getCol df c2 := by
  unfold setCol
  by_cases hc : hasCol df c
  · simp only [hc, if_true, beq_iff_eq]
    exact getCol_replace_ne df c c2 v h
  · simp only [hc, Bool.false_eq_true, if_false]
    exact getCol_append_single_ne df c c2 v h

theorem hasCol_replace_self (df : DFrame) (c : String) (v : Col)
    (h : hasCol df c = true) :
    hasCol (df.map (fun p => if p.1 = c then (c, v) else p)) c = true := by
  induction df with
  | nil => simp [hasCol] at h
  | cons p t ih =>
    by_cases hp : p.1 = c
    · simp [hasCol_cons, hp]
    · have ht : hasCol t c = true := by
        rw [hasCol_cons] at h
        simpa [hp] using h
      simp [hasCol_cons, hp, ih ht]

theorem hasCol_replace_ne (df : DFrame) (c c2 : String) (v : Col)
    (h : c2 ≠ c) :
    hasCol (df.map (fun p => if p.1 = c then (c, v) else p)) c2 =
      hasCol df c2 := by
  induction df with
  | nil => rfl
  | cons p t ih =>
    by_cases hp : p.1 = c
    · simp [hasCol_cons, hp, Ne.symm h, ih]
    · simp [hasCol_cons, hp, ih]

theorem hasCol_setCol_self (df : DFrame) (c : String) (v : Col) :
    hasCol (setCol df c v) c = true := by
  unfold setCol
  by_cases h : hasCol df c
  · simp only [h, if_true, beq_iff_eq]
    exact hasCol_replace_self df c v h
  · rw [if_neg h]
    simp [hasCol, List.any_append]

theorem hasCol_setCol_ne (df : DFrame) (c c2 : String) (v : Col)
    (h : c2 ≠ c) : hasCol (setCol df c v) c2 = hasCol df c2 := by
  unfold setCol
  by_cases hc : hasCol df c
  · simp only [hc, if_true, beq_iff_eq]
    exact hasCol_replace_ne df c c2 v h
  · rw [if_neg hc]
    simp [hasCol, List.any_append, Ne.symm h]

theorem getD_map_of_fixed_none (g : Option ℚ → Option ℚ)
    (hg : g none = none) (l : List (Option ℚ)) (i : Nat) :
    (l.map g).getD i none = g (l.getD i none) := by
  induction l generalizing i with
  | nil => simpa using hg.symm
  | cons a t ih =>
    cases i with
    | zero => rfl
    | succ n => simpa using ih n

/-- C5: constructing an `AnalysisConfig` whose category weights do not sum
to 1.0 within a tolerance of 0.001 fails at construction with a validation
error; a successful construction stores the weights unchanged (never
silently corrected), and every successfully constructed configuration has
weights summing to 1.0 ± 0.001. -/
theorem C5_config_weight_validation (w : List (String × ℚ)) :
    (|(w.map Prod.snd).sum - 1| > 1/1000 →
      mkAnalysisConfig w = Except.error "Weights must sum to 1.0") ∧
    (|(w.map Prod.snd).sum - 1| ≤ 1/1000 →
      mkAnalysisConfig w = Except.ok { weights := w }) ∧
    (∀ c : AnalysisConfig, mkAnalysisConfig w = Except.ok c →
      c.weights = w ∧ |(c.weights.map Prod.snd).sum - 1| ≤ 1/1000) := by
  unfold mkAnalysisConfig validate_weights_sum
  by_cases h : |(w.map Prod.snd).sum - 1| > 1/1000
  · rw [if_pos h]
    exact ⟨fun _ => rfl, fun h2 => absurd h (not_lt.2 h2), fun c hc => by cases hc⟩
  · rw [if_neg h]
    refine ⟨fun h2 => absurd h2 h, fun _ => rfl, fun c hc => ?_⟩
    cases hc
    exact ⟨rfl, not_lt.1 h⟩

/-- Witness for C5 at the default weight table, whose weights sum to 1. -/
theorem C5_config_weight_validation_witness :
    mkAnalysisConfig [("growth", 3/10), ("wool", 1/5), ("reproduction", 1/5),
        ("health", 1/5), ("temperament", 1/10)] =
      Except.ok { weights := [("growth", 3/10), ("wool", 1/5),
        ("reproduction", 1/5), ("health", 1/5), ("temperament", 1/10)] } :=
  (C5_config_weight_validation _).2.1 (by norm_num)

/-- C3: in a cohort-trait column with at least 2 non-missing values, each
non-missing raw value `v` standardizes to
`count(non-missing ≤ v) / count(non-missing) × 100`; every standardized
value lies in `[0, 100]`, equal raw values receive the same percentile, and
the standardized value is monotone non-decreasing in the raw value. -/
theorem C3_percentile_standardization (values : List (Option ℚ))
    (i j : Nat) (v w : ℚ)
    (hn : 2 ≤ (values.filterMap id).length)
    (hi : values.getD i none = some v)
    (hj : values.getD j none = some w) :
    (percentileStandardize values).getD i none =
      some ((((values.filterMap id).countP (fun u => u ≤ v) : ℚ) /
        ((values.filterMap id).length : ℚ)) * 100) ∧
    (∀ p : ℚ, (percentileStandardize values).getD i none = some p →
      0 ≤ p ∧ p ≤ 100) ∧
    (v = w →
      (percentileStandardize values).getD i none =
        (percentileStandardize values).getD j none) ∧
    (v ≤ w → ∀ p q : ℚ,
      (percentileStandardize values).getD i none = some p →
      (percentileStandardize values).getD j none = some q → p ≤ q) := by
  have hlen : ¬ (values.filterMap id).length < 2 := not_lt.2 hn
  have hpos : (0 : ℚ) < ((values.filterMap id).length : ℚ) := by
    have : 0 < (values.filterMap id).length := lt_of_lt_of_le (by norm_num) hn
    exact_mod_cast this
  have hmap : ∀ (k : Nat), (percentileStandardize values).getD k none =
      (values.getD k none).map (fun x =>
        (((values.filterMap id).countP (fun u => u ≤ x) : ℚ) /
          ((values.filterMap id).length : ℚ)) * 100) := by
    intro k
    simp only [percentileStandardize]
    rw [if_neg hlen]
    exact getD_map_of_fixed_none _ rfl values k
  refine ⟨?_, ?_, ?_, ?_⟩
  · rw [hmap i, hi]
    rfl
  · intro p hp
    rw [hmap i, hi] at hp
    have hp2 : (((values.filterMap id).countP (fun u => u ≤ v) : ℚ) /
        ((values.filterMap id).length : ℚ)) * 100 = p := by
      simpa using hp
    constructor
    · rw [← hp2]
      positivity
    · rw [← hp2]
      have hc : ((values.filterMap id).countP (fun u => u ≤ v) : ℚ) ≤
          ((values.filterMap id).length : ℚ) := by
        exact_mod_cast List.countP_le_length _
      calc (((values.filterMap id).countP (fun u => u ≤ v) : ℚ) /
            ((values.filterMap id).length : ℚ)) * 100
          ≤ 1 * 100 := by
            apply mul_le_mul_of_nonneg_right _ (by norm_num)
            exact (div_le_one hpos).2 hc
        _ = 100 := by norm_num
  · intro hvw
    rw [hmap i, hmap j, hi, hj, hvw]
  · intro hvw p q hp hq
    rw [hmap i, hi] at hp
    rw [hmap j, hj] at hq
    have hp2 := Option.some.inj hp
    have hq2 := Option.some.inj hq
    rw [← hp2, ← hq2]
    have hcount : (values.filterMap id).countP (fun u => u ≤ v) ≤
        (values.filterMap id).countP (fun u => u ≤ w) := by
      apply List.countP_mono_left
      intro x _ hx
      simp only [decide_eq_true_eq] at hx ⊢
      exact le_trans hx hvw
    have hcast : ((values.filterMap id).countP (fun u => u ≤ v) : ℚ) ≤
        ((values.filterMap id).countP (fun u => u ≤ w) : ℚ) := by
      exact_mod_cast hcount
    exact mul_le_mul_of_nonneg_right ((div_le_div_right hpos).2 hcast)
      (by norm_num)

/-- Witness for C3 at the column `[some 1, some 2, none, some 2]`: row 0
standardizes to `1/3 × 100` and rows 1 and 3 to `100`. -/
theorem C3_percentile_standardization_witness :
    (percentileStandardize [some 1, some 2, none, some 2]).getD 0 none =
      some (((1 : ℚ) / 3) * 100) := by
  have h := (C3_percentile_standardization [some 1, some 2, none, some 2]
    0 1 1 2 (by decide) (by decide) (by decide)).1
  simpa using h

/-- C7: z-score standardization of a cohort-trait column with at least 2
non-missing values that are all identical (sample variance 0, hence sample
standard deviation 0) assigns 0 to every entry of the column; the division
by the standard deviation is never taken on this branch. -/
theorem C7_zscore_zero_variance (values : List (Option ℚ)) (c : ℚ)
    (hn : 2 ≤ (values.filterMap id).length)
    (hall : ∀ u ∈ values.filterMap id, u = c) :
    zscoreStandardize values = values.map (fun _ => some 0) := by
  have hlen : ¬ (values.filterMap id).length < 2 := not_lt.2 hn
  have hlen0 : ((values.filterMap id).length : ℚ) ≠ 0 := by
    have : 0 < (values.filterMap id).length := lt_of_lt_of_le (by norm_num) hn
    exact_mod_cast Nat.pos_iff_ne_zero.1 this
  have hm : (values.filterMap id).sum / ((values.filterMap id).length : ℚ) = c := by
    rw [List.sum_eq_card_nsmul (values.filterMap id) c hall, nsmul_eq_mul]
    exact mul_div_cancel_left₀ c hlen0
  have hvar : ((values.filterMap id).map (fun v =>
      (v - (values.filterMap id).sum / ((values.filterMap id).length : ℚ)) ^ 2)).sum = 0 := by
    rw [List.sum_eq_card_nsmul _ (0 : ℚ), smul_zero]
    intro x hx
    rcases List.mem_map.1 hx with ⟨u, hu, rfl⟩
    rw [hm, hall u hu]
    ring
  simp only [zscoreStandardize]
  rw [if_neg hlen, hvar, zero_div]
  rw [if_pos (by simpa using Rat.sqrt_natCast 0)]

/-- Witness for C7 at the column `[some 3, none, some 3]`. -/
theorem C7_zscore_zero_variance_witness :
    zscoreStandardize [some 3, none, some 3] = [some 0, some 0, some 0] := by
  have h := C7_zscore_zero_variance [some 3, none, some 3] 3
    (by decide) (by decide)
  simpa using h

theorem getD_map_of_lt {α β : Type} (f : α → β) (l : List α) (i : Nat)
    (h : i < l.length) (d : α) (d2 : β) :
    (l.map f).getD i d2 = f (l.getD i d) := by
  induction l generalizing i with
  | nil => simp at h
  | cons a t ih =>
    cases i with
    | zero => rfl
    | succ n =>
      simp only [List.map_cons, List.getD_cons_succ]
      exact ih n (by simpa using h)

theorem getD_mem_of_lt (l : List ℚ) (i : Nat) (h : i < l.length) :
    l.getD i 0 ∈ l := by
  induction l generalizing i with
  | nil => simp at h
  | cons a t ih =>
    cases i with
    | zero => simp
    | succ n =>
      simp only [List.getD_cons_succ]
      exact List.mem_cons_of_mem a (ih n (by simpa using h))

theorem firstPos_sorted_eq_countP (x : ℚ) (L : List ℚ)
    (hs : L.Pairwise (fun a b => b ≤ a)) (hx : x ∈ L) :
    firstPos x L = L.countP (fun y => x < y) := by
  induction L with
  | nil => cases hx
  | cons a t ih =>
    rw [List.pairwise_cons] at hs
    by_cases hxa : x = a
    · simp only [firstPos, if_pos hxa]
      have h0 : (a :: t).countP (fun y => x < y) = 0 := by
        rw [List.countP_eq_zero]
        intro y hy
        simp only [decide_eq_true_eq]
        rcases List.mem_cons.1 hy with rfl | hyt
        · rw [hxa]
          exact lt_irrefl y
        · rw [hxa]
          exact not_lt.2 (hs.1 y hyt)
      rw [h0]
    · simp only [firstPos, if_neg hxa]
      have hxt : x ∈ t := by
        rcases List.mem_cons.1 hx with rfl | h2
        · exact absurd rfl hxa
        · exact h2
      have hxlta : x < a := lt_of_le_of_ne (hs.1 x hxt) hxa
      rw [List.countP_cons_of_pos _ _ (by simpa using hxlta), ih hs.2 hxt]

/-- C4: after score calculation every rank equals one plus the number of
animals with a strictly higher composite score (descending sort with the
minimum tie-break), and composite scores [0.90, 0.90, 0.80] receive ranks
[1, 1, 3]. -/
theorem C4_competition_ranking (scores : List ℚ) (i : Nat)
    (hi : i < scores.length) :
    (rankMinDesc scores).getD i 0 =
      1 + scores.countP (fun y => scores.getD i 0 < y) ∧
    rankMinDesc [9/10, 9/10, 8/10] = [1, 1, 3] := by
  constructor
  · have hx : scores.getD i 0 ∈ scores := getD_mem_of_lt scores i hi
    have hsorted :
        (scores.insertionSort (fun a b => b ≤ a)).Pairwise (fun a b => b ≤ a) :=
      List.sorted_insertionSort (fun a b => b ≤ a) scores
    have hxs : scores.getD i 0 ∈ scores.insertionSort (fun a b => b ≤ a) :=
      (List.perm_insertionSort (fun a b => b ≤ a) scores).mem_iff.2 hx
    simp only [rankMinDesc]
    rw [getD_map_of_lt _ scores i hi 0 0,
      firstPos_sorted_eq_countP _ _ hsorted hxs,
      (List.perm_insertionSort (fun a b => b ≤ a) scores).countP_eq]
    omega
  · norm_num [rankMinDesc, firstPos, List.insertionSort, List.orderedInsert]

/-- Witness for C4 at the score column [0.90, 0.90, 0.80], row 2. -/
theorem C4_competition_ranking_witness :
    (rankMinDesc [9/10, 9/10, 8/10]).getD 2 0 =
      1 + ([9/10, 9/10, 8/10] : List ℚ).countP
        (fun y => ([9/10, 9/10, 8/10] : List ℚ).getD 2 0 < y) :=
  (C4_competition_ranking [9/10, 9/10, 8/10] 2 (by decide)).1

theorem mem_strengthNote (x name : String) (score : ℚ) :
    x ∈ strengthNote name score ↔
      7/10 < score ∧ x = "Strong " ++ name ++ " performance" := by
  by_cases h : 7/10 < score <;> simp [strengthNote, h]

theorem mem_weaknessNote (x name : String) (score : ℚ) :
    x ∈ weaknessNote name score ↔
      score < 3/10 ∧ x = "Poor " ++ name ++ " performance" := by
  by_cases h : 7/10 < score
  · have h2 : ¬ score < 3/10 := by
      intro hlt
      exact absurd (lt_trans hlt (lt_trans (by norm_num) h)) (lt_irrefl score)
    simp [weaknessNote, h, h2]
  · by_cases h3 : score < 3/10 <;> simp [weaknessNote, h, h3]

theorem mem_recommendationNote (x text : String) (o : Option ℚ) :
    x ∈ recommendationNote o text ↔
      ∃ v, o = some v ∧ v < 3/10 ∧ x = text := by
  cases o with
  | none => simp [recommendationNote]
  | some v => by_cases h : v < 3/10 <;> simp [recommendationNote, h]

/-- C9 (amended): a strength note is emitted exactly when the category
score (a missing entry read as 0) is strictly greater than 0.7 — not at
exactly 0.7 —, a weakness note exactly when it is strictly below 0.3, and
a textual recommendation exactly when the growth, health or reproduction
entry is present and strictly below 0.3. -/
theorem C9_explanation_thresholds (r : ScoreRow) :
    ("Strong growth performance" ∈ (generateExplanation r).strengths ↔
      7/10 < r.growth_score.getD 0) ∧
    ("Strong wool performance" ∈ (generateExplanation r).strengths ↔
      7/10 < r.wool_score.getD 0) ∧
    ("Strong reproduction performance" ∈ (generateExplanation r).strengths ↔
      7/10 < r.reproduction_score.getD 0) ∧
    ("Strong health performance" ∈ (generateExplanation r).strengths ↔
      7/10 < r.health_score.getD 0) ∧
    ("Strong temperament performance" ∈ (generateExplanation r).strengths ↔
      7/10 < r.temperament_score.getD 0) ∧
    ("Poor growth performance" ∈ (generateExplanation r).weaknesses ↔
      r.growth_score.getD 0 < 3/10) ∧
    ("Poor wool performance" ∈ (generateExplanation r).weaknesses ↔
      r.wool_score.getD 0 < 3/10) ∧
    ("Poor reproduction performance" ∈ (generateExplanation r).weaknesses ↔
      r.reproduction_score.getD 0 < 3/10) ∧
    ("Poor health performance" ∈ (generateExplanation r).weaknesses ↔
      r.health_score.getD 0 < 3/10) ∧
    ("Poor temperament performance" ∈ (generateExplanation r).weaknesses ↔
      r.temperament_score.getD 0 < 3/10) ∧
    ("Focus on improving growth performance" ∈
        (generateExplanation r).recommendations ↔
      ∃ v, r.growth_score = some v ∧ v < 3/10) ∧
    ("Address health issues" ∈ (generateExplanation r).recommendations ↔
      ∃ v, r.health_score = some v ∧ v < 3/10) ∧
    ("Improve reproductive performance" ∈
        (generateExplanation r).recommendations ↔
      ∃ v, r.reproduction_score = some v ∧ v < 3/10) := by
  refine ⟨?_, ?_, ?_, ?_, ?_, ?_, ?_, ?_, ?_, ?_, ?_, ?_, ?_⟩ <;>
    simp +decide [generateExplanation, mem_strengthNote, mem_weaknessNote,
      mem_recommendationNote, List.mem_append]

/-- Counterexample to C9 as stated: a category score of exactly 0.7 emits
no strength note (the code tests strictly greater, the claim demands
"≥ 0.7"). -/
theorem C9_counterexample :
    (7/10 : ℚ) ≥ 7/10 ∧
    (generateExplanation ⟨some (7/10), some (1/2), some (1/2), some (1/2),
      some (1/2)⟩).strengths = [] := by
  constructor
  · norm_num
  · norm_num [generateExplanation, strengthNote]

theorem mem_hardFilterStage (df : DFrame) (c : String) (pred : ℚ → Bool)
    (idxs : List Nat) (i : Nat) :
    i ∈ hardFilterStage df c pred idxs ↔
      i ∈ idxs ∧ (hasCol df c = true → passesFilter df c pred i = true) := by
  unfold hardFilterStage
  by_cases h : hasCol df c
  · simp [h, List.mem_filter]
  · simp [h]

/-- C2 (amended): a hard filter is skipped exactly when its trait column
is absent from the record set; an animal survives hard filtering if and
only if, for every filter whose trait column is present, its own value
exists and passes the comparison.  In particular an animal with a missing
value in a present filter column is removed, so per-animal missing data
does cause elimination; only a column missing from the whole record set
is forgiven. -/
theorem C2_hard_filters_column_skip (cfg : AnalysisConfig) (df : DFrame)
    (i : Nat) :
    i ∈ hardSurvivors cfg df ↔
      i < nrows df ∧
      (hasCol df "wt_birth" = true →
        passesFilter df "wt_birth" (fun v => cfg.min_birth_weight ≤ v) i = true) ∧
      (hasCol df "footrot_score" = true →
        passesFilter df "footrot_score" (fun v => v ≤ cfg.max_footrot_score) i = true) ∧
      (hasCol df "dag_score" = true →
        passesFilter df "dag_score" (fun v => v ≤ cfg.max_dag_score) i = true) ∧
      (hasCol df "wt_wean" = true →
        passesFilter df "wt_wean" (fun v => cfg.min_weaning_weight ≤ v) i = true) ∧
      (hasCol df "micron" = true →
        passesFilter df "micron" (fun v => v ≤ cfg.max_micron) i = true) ∧
      (cfg.bse_pass_required = true → hasCol df "bse_pass" = true →
        passesFilter df "bse_pass" (fun v => v == 1) i = true) := by
  unfold hardSurvivors
  by_cases hb : cfg.bse_pass_required
  · simp only [hb, if_true, mem_hardFilterStage, List.mem_range]
    tauto
  · simp only [hb, Bool.false_eq_true, if_false, mem_hardFilterStage,
      List.mem_range]
    constructor
    · intro h
      refine ⟨h.1.1.1.1.1, h.1.1.1.1.2, h.1.1.1.2, h.1.1.2, h.1.2, h.2,
        fun hreq => absurd hreq (by simp [hb])⟩
    · intro h
      exact ⟨⟨⟨⟨⟨h.1, h.2.1⟩, h.2.2.1⟩, h.2.2.2.1⟩, h.2.2.2.2.1⟩, h.2.2.2.2.2.1⟩

/-- Witness for C2 (amended) at a two-row frame with only a birth-weight
column: row 0 carries the value 3 and survives. -/
theorem C2_hard_filters_column_skip_witness :
    0 ∈ hardSurvivors defaultConfig [("wt_birth", [some 3, none])] :=
  (C2_hard_filters_column_skip defaultConfig
    [("wt_birth", [some 3, none])] 0).2 (by decide)

/-- Counterexample to C2 as stated: the birth-weight column is present but
the animal at row 1 has no birth-weight value, and the hard filter removes
it — its missing trait value does cause elimination. -/
theorem C2_counterexample :
    (getCol [("wt_birth", [some 3, none])] "wt_birth").getD 1 none = none ∧
    hardSurvivors defaultConfig [("wt_birth", [some 3, none])] = [0] := by
  constructor
  · rfl
  · decide

theorem mem_ite_singleton {c : Prop} [Decidable c] (x a : String) :
    x ∈ (if c then [a] else []) ↔ c ∧ x = a := by
  by_cases h : c <;> simp [h]

/-- C8: over the filtered population an animal is recommended for culling
exactly when its existing cull flag is set, its 300-day weight is below
the population's 10th percentile, its health score is below the
population's 10th percentile, or its weaning rate is below the absolute
floor 0.5 — and each satisfied criterion contributes its reason fragment
to the animal's accumulated reason list. -/
theorem C8_cull_criteria (df : DFrame) (i : Nat) :
    cullRecommended df i =
      (cullFlagged df i || lowLateWeight df i || poorHealth df i ||
        poorRepro df i) ∧
    ("Existing cull flag" ∈ cullReasonPieces df i ↔
      cullFlagged df i = true) ∧
    ("Low 300d weight; " ∈ cullReasonPieces df i ↔
      lowLateWeight df i = true) ∧
    ("Poor health; " ∈ cullReasonPieces df i ↔ poorHealth df i = true) ∧
    ("Poor reproduction; " ∈ cullReasonPieces df i ↔
      poorRepro df i = true) := by
  refine ⟨?_, ?_, ?_, ?_, ?_⟩
  · unfold cullRecommended
    cases h1 : cullFlagged df i <;> cases h2 : lowLateWeight df i <;>
      cases h3 : poorHealth df i <;> cases h4 : poorRepro df i <;> simp
  all_goals
    simp +decide [cullReasonPieces, mem_ite_singleton, List.mem_append]

/-- Witness for C8 at a one-row frame whose only criterion column is a set
cull flag. -/
theorem C8_cull_criteria_witness :
    cullRecommended [("cull_flag", [some 1])] 0 = true := by
  rw [(C8_cull_criteria [("cull_flag", [some 1])] 0).1]
  rfl

theorem windowWalk_ids (mg : String) (w : Int)
    (l : List (String × Option Int)) :
    ∀ (st : Option (Option Int)) (g : Nat),
    (windowWalk mg w l st g).map Prod.fst = l.map Prod.fst := by
  induction l with
  | nil => intro st g; rfl
  | cons p rest ih =>
    intro st g
    obtain ⟨aid, bd⟩ := p
    cases st with
    | none => simpa [windowWalk] using ih (some bd) g
    | some st0 =>
      simp only [windowWalk]
      split <;> simp [ih]

theorem mem_group_ids (w : Int) (mg : String) (rows : List GroupRow)
    (aid : String) :
    aid ∈ (groupByBirthWindow w mg rows).map Prod.fst ↔
      ∃ r ∈ rows, r.mgmt_group = some mg ∧ r.animal_id = aid := by
  unfold groupByBirthWindow
  rw [windowWalk_ids, List.map_map]
  simp only [List.mem_map, List.mem_filter, Function.comp,
    List.mem_insertionSort, beq_iff_eq]
  tauto

theorem mem_create_ids (w : Int) (rows : List GroupRow) (aid : String) :
    aid ∈ (createContemporaryGroups w rows).map Prod.fst ↔
      ∃ r ∈ rows, r.animal_id = aid ∧ ∃ mg, r.mgmt_group = some mg := by
  simp only [createContemporaryGroups, List.mem_map, List.mem_flatten]
  constructor
  · rintro ⟨p, ⟨l, ⟨mg, hmg, rfl⟩, hpl⟩, rfl⟩
    have hid : p.1 ∈ (groupByBirthWindow w mg rows).map Prod.fst :=
      List.mem_map_of_mem _ hpl
    rcases (mem_group_ids w mg rows p.1).1 hid with ⟨r, hr, hrmg, hraid⟩
    exact ⟨r, hr, hraid, mg, hrmg⟩
  · rintro ⟨r, hr, rfl, mg, hmg⟩
    have hmgmem : mg ∈ mgmtGroups rows := by
      unfold mgmtGroups
      rw [List.mem_dedup]
      exact List.mem_filterMap.2 ⟨r, hr, by rw [hmg]⟩
    have hid : r.animal_id ∈ (groupByBirthWindow w mg rows).map Prod.fst :=
      (mem_group_ids w mg rows r.animal_id).2 ⟨r, hr, hmg, rfl⟩
    rcases List.mem_map.1 hid with ⟨p, hp, hpe⟩
    exact ⟨p, ⟨groupByBirthWindow w mg rows, ⟨mg, hmgmem, rfl⟩, hp⟩, hpe⟩

/-- C6 (amended): contemporary-group assignment is total (never raises),
and an animal lacking a management group is excluded from assignment
(its cohort is none); but an animal lacking a birth date is NOT excluded:
whenever it has a management group it still receives a cohort, because the
day-difference test against a missing date is false and simply opens a
fresh window for it. -/
theorem C6_grouping_missing_data (w : Int) (rows : List GroupRow)
    (r : GroupRow) (hr : r ∈ rows)
    (hnodup : (rows.map GroupRow.animal_id).Nodup) :
    (r.mgmt_group = none →
      contemporaryGroupOf w rows r.animal_id = none) ∧
    (∀ mg, r.mgmt_group = some mg →
      ∃ label, contemporaryGroupOf w rows r.animal_id = some label) := by
  constructor
  · intro hmg
    unfold contemporaryGroupOf
    rw [List.find?_eq_none.2]
    · rfl
    · intro p hp
      simp only [beq_iff_eq]
      intro he
      have hpid : p.1 ∈ (createContemporaryGroups w rows).map Prod.fst :=
        List.mem_map_of_mem _ hp
      rcases (mem_create_ids w rows p.1).1 hpid with ⟨r2, hr2, hid2, mg2, hmg2⟩
      have hre : r2 = r := by
        apply List.inj_on_of_nodup_map hnodup hr2 hr
        rw [hid2, he]
      rw [hre, hmg] at hmg2
      cases hmg2
  · intro mg hmg
    have hid : r.animal_id ∈ (createContemporaryGroups w rows).map Prod.fst :=
      (mem_create_ids w rows r.animal_id).2 ⟨r, hr, rfl, mg, hmg⟩
    rcases List.mem_map.1 hid with ⟨p, hp, hpe⟩
    have hf : ((createContemporaryGroups w rows).find?
        (fun q => q.1 == r.animal_id)).isSome := by
      rw [List.find?_isSome]
      exact ⟨p, hp, by simp [hpe]⟩
    rcases Option.isSome_iff_exists.1 hf with ⟨q, hq⟩
    unfold contemporaryGroupOf
    exact ⟨q.2, by rw [hq]; rfl⟩

/-- Witness for C6 (amended): in a two-animal herd, the animal without a
management group gets no cohort. -/
theorem C6_grouping_missing_data_witness :
    contemporaryGroupOf 30
      [⟨"A", some "M", some 0⟩, ⟨"C", none, some 5⟩] "C" = none :=
  (C6_grouping_missing_data 30
    [⟨"A", some "M", some 0⟩, ⟨"C", none, some 5⟩]
    ⟨"C", none, some 5⟩
    (List.mem_cons_of_mem _ (List.mem_cons_self _ _))
    (by decide)).1 rfl

/-- Counterexample to C6 as stated: animal B has no birth date, yet it is
not excluded from assignment — it is placed in the fresh singleton cohort
M_G2. -/
theorem C6_counterexample :
    (⟨"B", some "M", none⟩ : GroupRow).birth_date = none ∧
    contemporaryGroupOf 30
      [⟨"A", some "M", some 0⟩, ⟨"B", some "M", none⟩] "B" =
      some "M_G2" := by
  constructor
  · rfl
  · rfl

theorem addCategoryScore_present (df : DFrame) (c : String)
    (ts : List String) (h : hasCol df c = true) :
    addCategoryScore df c ts = df := by
  unfold addCategoryScore
  rw [if_pos h]

theorem hasCol_addCategoryScore_self (df : DFrame) (c : String)
    (ts : List String) : hasCol (addCategoryScore df c ts) c = true := by
  unfold addCategoryScore
  by_cases h : hasCol df c
  · rw [if_pos h]
    exact h
  · rw [if_neg h]
    by_cases h2 : (ts.filter (fun t => hasCol df t)).isEmpty <;>
      simp [h2, hasCol_setCol_self]

theorem hasCol_addCategoryScore_ne (df : DFrame) (c c2 : String)
    (ts : List String) (h : c2 ≠ c) :
    hasCol (addCategoryScore df c ts) c2 = hasCol df c2 := by
  unfold addCategoryScore
  by_cases h1 : hasCol df c
  · rw [if_pos h1]
  · rw [if_neg h1]
    by_cases h2 : (ts.filter (fun t => hasCol df t)).isEmpty <;>
      simp [h2, hasCol_setCol_ne df c c2 _ h]

theorem getCol_addCategoryScore_ne (df : DFrame) (c c2 : String)
    (ts : List String) (h : c2 ≠ c) :
    getCol (addCategoryScore df c ts) c2 = getCol df c2 := by
  unfold addCategoryScore
  by_cases h1 : hasCol df c
  · rw [if_pos h1]
  · rw [if_neg h1]
    by_cases h2 : (ts.filter (fun t => hasCol df t)).isEmpty <;>
      simp [h2, getCol_setCol_ne df c c2 _ h]

theorem addHealthScore_present (df : DFrame)
    (h : hasCol df "health_score" = true) : addHealthScore df = df := by
  unfold addHealthScore
  rw [if_pos h]

theorem hasCol_addHealthScore_self (df : DFrame) :
    hasCol (addHealthScore df) "health_score" = true := by
  unfold addHealthScore
  by_cases h : hasCol df "health_score"
  · rw [if_pos h]
    exact h
  · rw [if_neg h]
    by_cases h2 : (health_traits.filter (fun t => hasCol df t)).isEmpty <;>
      simp [h2, hasCol_setCol_self]

theorem hasCol_addHealthScore_ne (df : DFrame) (c2 : String)
    (h : c2 ≠ "health_score") :
    hasCol (addHealthScore df) c2 = hasCol df c2 := by
  unfold addHealthScore
  by_cases h1 : hasCol df "health_score"
  · rw [if_pos h1]
  · rw [if_neg h1]
    by_cases h2 : (health_traits.filter (fun t => hasCol df t)).isEmpty <;>
      simp [h2, hasCol_setCol_ne df "health_score" c2 _ h]

theorem getCol_addHealthScore_ne (df : DFrame) (c2 : String)
    (h : c2 ≠ "health_score") :
    getCol (addHealthScore df) c2 = getCol df c2 := by
  unfold addHealthScore
  by_cases h1 : hasCol df "health_score"
  · rw [if_pos h1]
  · rw [if_neg h1]
    by_cases h2 : (health_traits.filter (fun t => hasCol df t)).isEmpty <;>
      simp [h2, getCol_setCol_ne df "health_score" c2 _ h]

theorem addTemperamentScore_present (df : DFrame)
    (h : hasCol df "temperament_score" = true) :
    addTemperamentScore df = df := by
  unfold addTemperamentScore
  rw [if_pos h]

theorem hasCol_addTemperamentScore_self (df : DFrame) :
    hasCol (addTemperamentScore df) "temperament_score" = true := by
  unfold addTemperamentScore
  by_cases h : hasCol df "temperament_score"
  · rw [if_pos h]
    exact h
  · rw [if_neg h]
    by_cases h2 : hasCol df "temperament" <;>
      simp [h2, hasCol_setCol_self]

theorem hasCol_addTemperamentScore_ne (df : DFrame) (c2 : String)
    (h : c2 ≠ "temperament_score") :
    hasCol (addTemperamentScore df) c2 = hasCol df c2 := by
  unfold addTemperamentScore
  by_cases h1 : hasCol df "temperament_score"
  · rw [if_pos h1]
  · rw [if_neg h1]
    by_cases h2 : hasCol df "temperament" <;>
      simp [h2, hasCol_setCol_ne df "temperament_score" c2 _ h]

theorem getCol_addTemperamentScore_ne (df : DFrame) (c2 : String)
    (h : c2 ≠ "temperament_score") :
    getCol (addTemperamentScore df) c2 = getCol df c2 := by
  unfold addTemperamentScore
  by_cases h1 : hasCol df "temperament_score"
  · rw [if_pos h1]
  · rw [if_neg h1]
    by_cases h2 : hasCol df "temperament" <;>
      simp [h2, getCol_setCol_ne df "temperament_score" c2 _ h]

theorem getCol_calculateCompositeScore_ne (df : DFrame)
    (w : List (String × ℚ)) (c2 : String) (h : c2 ≠ "composite_score") :
    getCol (calculateCompositeScore df w) c2 = getCol df c2 := by
  simp only [calculateCompositeScore]
  split
  · exact getCol_setCol_ne df "composite_score" c2 _ h
  · split
    · exact getCol_setCol_ne df "composite_score" c2 _ h
    · exact getCol_setCol_ne df "composite_score" c2 _ h

theorem getCol_addRanking_ne (df : DFrame) (c2 : String)
    (h : c2 ≠ "rank") : getCol (addRanking df) c2 = getCol df c2 := by
  unfold addRanking
  by_cases h1 : hasCol df "composite_score" <;>
    simp [h1, getCol_setCol_ne df "rank" c2 _ h]

theorem nrows_setCol_absent (df : DFrame) (c : String) (v : Col)
    (h : hasCol df c = false) (hv : v.length = nrows df) :
    nrows (setCol df c v) = nrows df := by
  unfold setCol
  rw [if_neg (by simp [h])]
  cases df with
  | nil => simpa [nrows] using hv
  | cons p t => rfl

theorem nrows_addCategoryScore (df : DFrame) (c : String)
    (ts : List String) : nrows (addCategoryScore df c ts) = nrows df := by
  unfold addCategoryScore
  by_cases h : hasCol df c
  · rw [if_pos h]
  · rw [if_neg h]
    by_cases h2 : (ts.filter (fun t => hasCol df t)).isEmpty
    · simp only [h2, if_true]
      exact nrows_setCol_absent df c _ (by simpa using h) (by simp)
    · simp only [h2, Bool.false_eq_true, if_false]
      exact nrows_setCol_absent df c _ (by simpa using h)
        (by simp [rowMeanSkipna])

theorem getD_range (n i : Nat) (h : i < n) :
    (List.range n).getD i 0 = i := by
  rw [List.getD_eq_getElem?_getD,
    List.getElem?_eq_getElem (by simpa using h)]
  simp

theorem hasCol_categoryScores_growth (df : DFrame) :
    hasCol (calculateCategoryScores df) "growth_score" = true := by
  unfold calculateCategoryScores
  rw [hasCol_addTemperamentScore_ne _ _ (by decide),
    hasCol_addHealthScore_ne _ _ (by decide),
    hasCol_addCategoryScore_ne _ _ _ _ (by decide),
    hasCol_addCategoryScore_ne _ _ _ _ (by decide)]
  exact hasCol_addCategoryScore_self df "growth_score" growth_traits

theorem hasCol_categoryScores_wool (df : DFrame) :
    hasCol (calculateCategoryScores df) "wool_score" = true := by
  unfold calculateCategoryScores
  rw [hasCol_addTemperamentScore_ne _ _ (by decide),
    hasCol_addHealthScore_ne _ _ (by decide),
    hasCol_addCategoryScore_ne _ _ _ _ (by decide)]
  exact hasCol_addCategoryScore_self _ "wool_score" wool_traits

theorem hasCol_categoryScores_repro (df : DFrame) :
    hasCol (calculateCategoryScores df) "reproduction_score" = true := by
  unfold calculateCategoryScores
  rw [hasCol_addTemperamentScore_ne _ _ (by decide),
    hasCol_addHealthScore_ne _ _ (by decide)]
  exact hasCol_addCategoryScore_self _ "reproduction_score" repro_traits

theorem hasCol_categoryScores_health (df : DFrame) :
    hasCol (calculateCategoryScores df) "health_score" = true := by
  unfold calculateCategoryScores
  rw [hasCol_addTemperamentScore_ne _ _ (by decide)]
  exact hasCol_addHealthScore_self _

theorem hasCol_categoryScores_temperament (df : DFrame) :
    hasCol (calculateCategoryScores df) "temperament_score" = true := by
  unfold calculateCategoryScores
  exact hasCol_addTemperamentScore_self _

theorem composite_cell_default (df2 : DFrame) (i : Nat)
    (hi : i < nrows df2)
    (hg : hasCol df2 "growth_score" = true)
    (hw : hasCol df2 "wool_score" = true)
    (hr : hasCol df2 "reproduction_score" = true)
    (hh : hasCol df2 "health_score" = true)
    (ht : hasCol df2 "temperament_score" = true) :
    cell (calculateCompositeScore df2 defaultConfig.weights)
      "composite_score" i =
      some ((cell df2 "growth_score" i).getD 0 * (3/10) +
        (cell df2 "wool_score" i).getD 0 * (1/5) +
        (cell df2 "reproduction_score" i).getD 0 * (1/5) +
        (cell df2 "health_score" i).getD 0 * (1/5) +
        (cell df2 "temperament_score" i).getD 0 * (1/10)) := by
  have e1 : defaultConfig.weights = [("growth", 3/10), ("wool", 1/5),
      ("reproduction", 1/5), ("health", 1/5), ("temperament", 1/10)] := rfl
  have hfil : defaultConfig.weights.filter
      (fun p => hasCol df2 (p.1 ++ "_score")) = defaultConfig.weights := by
    rw [e1]
    simp [List.filter, hg, hw, hr, hh, ht]
  simp only [calculateCompositeScore]
  rw [hfil, e1]
  have hposfil : [(("growth" : String), (3:ℚ)/10), ("wool", 1/5),
      ("reproduction", 1/5), ("health", 1/5), ("temperament", 1/10)].filter
      (fun p => 0 < p.2) =
      [(("growth" : String), (3:ℚ)/10), ("wool", 1/5), ("reproduction", 1/5),
        ("health", 1/5), ("temperament", 1/10)] := by
    norm_num [List.filter]
  rw [if_neg (by simp)]
  rw [hposfil]
  have hsum : ([(("growth" : String), (3:ℚ)/10), ("wool", 1/5),
      ("reproduction", 1/5), ("health", 1/5),
      ("temperament", 1/10)].map Prod.snd).sum = 1 := by
    norm_num [List.map]
  rw [hsum]
  rw [if_pos ⟨List.cons_ne_nil _ _, by norm_num⟩]
  unfold cell
  rw [getCol_setCol_self,
    getD_map_of_lt _ (List.range (nrows df2)) i (by simpa using hi) 0 none,
    getD_range (nrows df2) i hi]
  simp only [List.map_cons, List.map_nil, List.sum_cons, List.sum_nil]
  norm_num
  ring_nf
  rfl

/-- C1 (amended): the composite denominator renormalizes over category
score COLUMNS of the frame, not per animal.  After category-score
computation all five configured categories are present as columns, so with
the default weights every animal's composite score is the full weighted
sum of its five category scores divided by the total weight 1; an animal
whose data for an entire category is missing receives category score 0,
which stays in the composite with the category's full weight instead of
being dropped from the denominator. -/
theorem C1_composite_column_renormalization (df : DFrame) (i : Nat)
    (hi : i < nrows (calculateCategoryScores df)) :
    cell (calculateScores df defaultConfig) "composite_score" i =
      some ((cell (calculateCategoryScores df) "growth_score" i).getD 0 * (3/10) +
        (cell (calculateCategoryScores df) "wool_score" i).getD 0 * (1/5) +
        (cell (calculateCategoryScores df) "reproduction_score" i).getD 0 * (1/5) +
        (cell (calculateCategoryScores df) "health_score" i).getD 0 * (1/5) +
        (cell (calculateCategoryScores df) "temperament_score" i).getD 0 * (1/10)) := by
  have h2 : cell (calculateScores df defaultConfig) "composite_score" i =
      cell (calculateCompositeScore (calculateCategoryScores df)
        defaultConfig.weights) "composite_score" i := by
    unfold calculateScores cell
    rw [getCol_addRanking_ne _ _ (by decide)]
  rw [h2]
  exact composite_cell_default (calculateCategoryScores df) i hi
    (hasCol_categoryScores_growth df) (hasCol_categoryScores_wool df)
    (hasCol_categoryScores_repro df) (hasCol_categoryScores_health df)
    (hasCol_categoryScores_temperament df)

/-- Witness for C1 (amended) at a two-animal frame whose second animal has
no growth data at all: its composite is 1/5, the growth weight staying in
the denominator. -/
theorem C1_composite_column_renormalization_witness :
    cell (calculateScores [("wt_200d_adj", [some 4, none]),
      ("temperament", [some 2, some 2])] defaultConfig)
      "composite_score" 1 =
      some ((0 : ℚ) * (3/10) + 0 * (1/5) + 0 * (1/5) + 0 * (1/5) +
        2 * (1/10)) := by
  have h := C1_composite_column_renormalization
    [("wt_200d_adj", [some 4, none]), ("temperament", [some 2, some 2])]
    1 (by decide)
  rw [h]
  norm_num [show cell (calculateCategoryScores [("wt_200d_adj",
      [some 4, none]), ("temperament", [some 2, some 2])])
      "growth_score" 1 = some 0 from rfl,
    show cell (calculateCategoryScores [("wt_200d_adj", [some 4, none]),
      ("temperament", [some 2, some 2])]) "wool_score" 1 = some 0 from rfl,
    show cell (calculateCategoryScores [("wt_200d_adj", [some 4, none]),
      ("temperament", [some 2, some 2])]) "reproduction_score" 1 =
      some 0 from rfl,
    show cell (calculateCategoryScores [("wt_200d_adj", [some 4, none]),
      ("temperament", [some 2, some 2])]) "health_score" 1 = some 0 from rfl,
    show cell (calculateCategoryScores [("wt_200d_adj", [some 4, none]),
      ("temperament", [some 2, some 2])]) "temperament_score" 1 =
      some 2 from rfl]

/-- Counterexample to C1 as stated: the second animal has growth data
missing entirely and temperament 2; renormalization over its present
categories would give composite (1/10 × 2) / (1/10) = 2, but the code
yields 1/5 — the absent growth category is counted as 0 at full weight. -/
theorem C1_counterexample :
    cell (calculateScores [("wt_200d_adj", [some 4, none]),
      ("temperament", [some 2, some 2])] defaultConfig)
      "composite_score" 1 = some (1/5) ∧ ((1 : ℚ)/5) ≠ 2 := by
  constructor
  · have h2 : cell (calculateScores [("wt_200d_adj", [some 4, none]),
        ("temperament", [some 2, some 2])] defaultConfig)
        "composite_score" 1 =
        cell (calculateCompositeScore (calculateCategoryScores
          [("wt_200d_adj", [some 4, none]), ("temperament",
            [some 2, some 2])]) defaultConfig.weights)
          "composite_score" 1 := by
      unfold calculateScores cell
      rw [getCol_addRanking_ne _ _ (by decide)]
    rw [h2, composite_cell_default _ 1 (by decide)
      (hasCol_categoryScores_growth _) (hasCol_categoryScores_wool _)
      (hasCol_categoryScores_repro _) (hasCol_categoryScores_health _)
      (hasCol_categoryScores_temperament _)]
    norm_num [show cell (calculateCategoryScores [("wt_200d_adj",
        [some 4, none]), ("temperament", [some 2, some 2])])
        "growth_score" 1 = some 0 from rfl,
      show cell (calculateCategoryScores [("wt_200d_adj", [some 4, none]),
        ("temperament", [some 2, some 2])]) "wool_score" 1 = some 0 from rfl,
      show cell (calculateCategoryScores [("wt_200d_adj", [some 4, none]),
        ("temperament", [some 2, some 2])]) "reproduction_score" 1 =
        some 0 from rfl,
      show cell (calculateCategoryScores [("wt_200d_adj", [some 4, none]),
        ("temperament", [some 2, some 2])]) "health_score" 1 =
        some 0 from rfl,
      show cell (calculateCategoryScores [("wt_200d_adj", [some 4, none]),
        ("temperament", [some 2, some 2])]) "temperament_score" 1 =
        some 2 from rfl]
  · norm_num

/-- C10: a category score column already present in the input to score
calculation is passed through completely unchanged — the ranking layer
computes a category score, including the 5 − raw inversion of footrot and
dag for health, only when the column is absent, so a health score computed
upstream by the metrics layer is never inverted a second time. -/
theorem C10_present_score_columns_unchanged (df : DFrame) :
    (hasCol df "growth_score" = true →
      getCol (calculateScores df defaultConfig) "growth_score" =
        getCol df "growth_score") ∧
    (hasCol df "wool_score" = true →
      getCol (calculateScores df defaultConfig) "wool_score" =
        getCol df "wool_score") ∧
    (hasCol df "reproduction_score" = true →
      getCol (calculateScores df defaultConfig) "reproduction_score" =
        getCol df "reproduction_score") ∧
    (hasCol df "health_score" = true →
      getCol (calculateScores df defaultConfig) "health_score" =
        getCol df "health_score") ∧
    (hasCol df "temperament_score" = true →
      getCol (calculateScores df defaultConfig) "temperament_score" =
        getCol df "temperament_score") ∧
    (hasCol df "health_score" = false → hasCol df "footrot_score" = true →
      hasCol df "fec_score" = false → hasCol df "dag_score" = false →
      ∀ i v, i < nrows df →
        (getCol df "footrot_score").getD i none = some v →
        cell (calculateCategoryScores df) "health_score" i =
          some (5 - v)) := by
  refine ⟨?_, ?_, ?_, ?_, ?_, ?_⟩
  · intro hg
    unfold calculateScores
    rw [getCol_addRanking_ne _ _ (by decide),
      getCol_calculateCompositeScore_ne _ _ _ (by decide)]
    unfold calculateCategoryScores
    rw [getCol_addTemperamentScore_ne _ _ (by decide),
      getCol_addHealthScore_ne _ _ (by decide),
      getCol_addCategoryScore_ne _ _ _ _ (by decide),
      getCol_addCategoryScore_ne _ _ _ _ (by decide),
      addCategoryScore_present _ _ _ hg]
  · intro hw
    unfold calculateScores
    rw [getCol_addRanking_ne _ _ (by decide),
      getCol_calculateCompositeScore_ne _ _ _ (by decide)]
    unfold calculateCategoryScores
    rw [getCol_addTemperamentScore_ne _ _ (by decide),
      getCol_addHealthScore_ne _ _ (by decide),
      getCol_addCategoryScore_ne _ _ _ _ (by decide),
      addCategoryScore_present _ _ _
        (by rw [hasCol_addCategoryScore_ne _ _ _ _ (by decide)]; exact hw),
      getCol_addCategoryScore_ne _ _ _ _ (by decide)]
  · intro hr
    unfold calculateScores
    rw [getCol_addRanking_ne _ _ (by decide),
      getCol_calculateCompositeScore_ne _ _ _ (by decide)]
    unfold calculateCategoryScores
    rw [getCol_addTemperamentScore_ne _ _ (by decide),
      getCol_addHealthScore_ne _ _ (by decide),
      addCategoryScore_present _ _ _
        (by rw [hasCol_addCategoryScore_ne _ _ _ _ (by decide),
          hasCol_addCategoryScore_ne _ _ _ _ (by decide)]; exact hr),
      getCol_addCategoryScore_ne _ _ _ _ (by decide),
      getCol_addCategoryScore_ne _ _ _ _ (by decide)]
  · intro hh
    unfold calculateScores
    rw [getCol_addRanking_ne _ _ (by decide),
      getCol_calculateCompositeScore_ne _ _ _ (by decide)]
    unfold calculateCategoryScores
    rw [getCol_addTemperamentScore_ne _ _ (by decide),
      addHealthScore_present _
        (by rw [hasCol_addCategoryScore_ne _ _ _ _ (by decide),
          hasCol_addCategoryScore_ne _ _ _ _ (by decide),
          hasCol_addCategoryScore_ne _ _ _ _ (by decide)]; exact hh),
      getCol_addCategoryScore_ne _ _ _ _ (by decide),
      getCol_addCategoryScore_ne _ _ _ _ (by decide),
      getCol_addCategoryScore_ne _ _ _ _ (by decide)]
  · intro ht
    unfold calculateScores
    rw [getCol_addRanking_ne _ _ (by decide),
      getCol_calculateCompositeScore_ne _ _ _ (by decide)]
    unfold calculateCategoryScores
    rw [addTemperamentScore_present _
        (by rw [hasCol_addHealthScore_ne _ _ (by decide),
          hasCol_addCategoryScore_ne _ _ _ _ (by decide),
          hasCol_addCategoryScore_ne _ _ _ _ (by decide),
          hasCol_addCategoryScore_ne _ _ _ _ (by decide)]; exact ht),
      getCol_addHealthScore_ne _ _ (by decide),
      getCol_addCategoryScore_ne _ _ _ _ (by decide),
      getCol_addCategoryScore_ne _ _ _ _ (by decide),
      getCol_addCategoryScore_ne _ _ _ _ (by decide)]
  · intro hh hfr hfec hdag i v hi hv
    unfold calculateCategoryScores cell
    rw [getCol_addTemperamentScore_ne _ _ (by decide)]
    have hhX : hasCol (addCategoryScore (addCategoryScore (addCategoryScore
        df "growth_score" growth_traits) "wool_score" wool_traits)
        "reproduction_score" repro_traits) "health_score" = false := by
      rw [hasCol_addCategoryScore_ne _ _ _ _ (by decide),
        hasCol_addCategoryScore_ne _ _ _ _ (by decide),
        hasCol_addCategoryScore_ne _ _ _ _ (by decide)]
      exact hh
    have hfrX : hasCol (addCategoryScore (addCategoryScore (addCategoryScore
        df "growth_score" growth_traits) "wool_score" wool_traits)
        "reproduction_score" repro_traits) "footrot_score" = true := by
      rw [hasCol_addCategoryScore_ne _ _ _ _ (by decide),
        hasCol_addCategoryScore_ne _ _ _ _ (by decide),
        hasCol_addCategoryScore_ne _ _ _ _ (by decide)]
      exact hfr
    have hfecX : hasCol (addCategoryScore (addCategoryScore (addCategoryScore
        df "growth_score" growth_traits) "wool_score" wool_traits)
        "reproduction_score" repro_traits) "fec_score" = false := by
      rw [hasCol_addCategoryScore_ne _ _ _ _ (by decide),
        hasCol_addCategoryScore_ne _ _ _ _ (by decide),
        hasCol_addCategoryScore_ne _ _ _ _ (by decide)]
      exact hfec
    have hdagX : hasCol (addCategoryScore (addCategoryScore (addCategoryScore
        df "growth_score" growth_traits) "wool_score" wool_traits)
        "reproduction_score" repro_traits) "dag_score" = false := by
      rw [hasCol_addCategoryScore_ne _ _ _ _ (by decide),
        hasCol_addCategoryScore_ne _ _ _ _ (by decide),
        hasCol_addCategoryScore_ne _ _ _ _ (by decide)]
      exact hdag
    have hgfrX : getCol (addCategoryScore (addCategoryScore (addCategoryScore
        df "growth_score" growth_traits) "wool_score" wool_traits)
        "reproduction_score" repro_traits) "footrot_score" =
        getCol df "footrot_score" := by
      rw [getCol_addCategoryScore_ne _ _ _ _ (by decide),
        getCol_addCategoryScore_ne _ _ _ _ (by decide),
        getCol_addCategoryScore_ne _ _ _ _ (by decide)]
    have hnX : nrows (addCategoryScore (addCategoryScore (addCategoryScore
        df "growth_score" growth_traits) "wool_score" wool_traits)
        "reproduction_score" repro_traits) = nrows df := by
      rw [nrows_addCategoryScore, nrows_addCategoryScore,
        nrows_addCategoryScore]
    have havail : health_traits.filter (fun t => hasCol (addCategoryScore
        (addCategoryScore (addCategoryScore df "growth_score" growth_traits)
        "wool_score" wool_traits) "reproduction_score" repro_traits) t) =
        ["footrot_score"] := by
      unfold health_traits
      simp [List.filter, hfecX, hfrX, hdagX]
    simp only [addHealthScore]
    rw [if_neg (by simp [hhX]), havail]
    rw [if_neg (by simp)]
    rw [getCol_setCol_self,
      getD_map_of_lt _ (List.range _) i (by simp [hnX, hi]) 0 none,
      getD_range _ i (by rw [hnX]; exact hi)]
    simp only [List.filterMap, hgfrX, hv]
    norm_num [healthAdjust]

/-- Witness for C10: an upstream health score column passes through score
calculation unchanged. -/
theorem C10_present_score_columns_unchanged_witness :
    getCol (calculateScores [("health_score", [some 2])] defaultConfig)
      "health_score" = [some 2] := by
  rw [(C10_present_score_columns_unchanged
    [("health_score", [some 2])]).2.2.2.1 (by decide)]
  rfl

end SheepApp
